import Mathlib

/-!
# Verification of the `iconic` plugin's rule engine, icon rendering and icon-pack code

This development gives a shallow embedding, in Lean 4, of the parts of the
repository needed to settle the frozen claims:

* the rule evaluation engine (`RuleManager`): its source file is not part of
  `src/`, only its callers are, so `evaluate`, `matches`, `checkRuling`,
  `saveRule` and `deleteRule` are modelled from the specification (§4.1–§4.5,
  §6 of `spec.md`);
* the icon picker's ruling reminder (`IconPicker.updateOverruleReminder`,
  `src/dialogs/IconPicker.ts`), embedded as a pure decision function;
* the DOM rendering routine (`IconManager.refreshIcon`,
  `src/managers/IconManager.ts`), embedded as a transformer on an explicit
  element-state record;
* the suggestion-popover rendering path
  (`SuggestionIconManager.refreshFileIcon`);
* the icon-pack registry and both versions of `IconPackManager.installPack`
  (`src/IconPacks.ts`, `src/unnamed/part_000`, `src/unnamed/part_001`);
* the SVG processing routine `processPackSvg` (`src/IconPacks.ts`), with the
  JavaScript regular expressions it uses modelled operationally on `List Char`.

JavaScript strings are modelled as Lean `String`/`List Char`; `null`/
`undefined` as `Option`; JS string truthiness (`''` is falsy) via `optTruthy`.
-/

/-- JS truthiness of a nullable string: `null`, `undefined` and `''` are falsy. -/
def optTruthy (o : Option String) : Bool :=
  match o with
  | some s => !s.isEmpty
  | none => false

/-- The term `o ?? ''` of JavaScript: nullish coalescing to the empty string. -/
def orEmpty (o : Option String) : String :=
  o.getD ""

/- ## The rule engine, modelled from the spec (its source file is not in `src/`) -/

/-- Modelled from the spec (§4.1): the value of one resolved attribute.
An attribute that is inapplicable or unknown resolves to `absent`,
which no operator satisfies. Dates are milliseconds since epoch. -/
inductive AttrValue where
  | str (s : String)
  | strs (l : List String)
  | num (n : Int)
  | boolean (b : Bool)
  | absent
deriving DecidableEq

/-- Modelled from the spec (§4.1): a resolved attribute set maps each
attribute source name to its typed value. -/
def AttributeSet := String → AttrValue

/-- Modelled from the spec (§3): one condition of a rule. -/
structure Condition where
  source : String
  operator : String
  value : String
deriving DecidableEq

/-- Modelled from the spec (§3): the ALL / ANY combinator of a rule. -/
inductive Combinator where
  | all
  | any
deriving DecidableEq

/-- Modelled from the spec (§3): a rule record. `category` is carried by the
store keying, so it is not repeated here; `name` and `id` are kept. -/
structure Rule where
  id : String
  name : String
  icon : Option String
  color : Option String
  combinator : Combinator
  conditions : List Condition
  enabled : Bool
deriving DecidableEq

/-- Is `pat` an infix of `l`? Helper for case-insensitive `contains`. -/
def containsSeq (pat : List Char) : List Char → Bool
  | [] => pat.isEmpty
  | c :: rest => pat.isPrefixOf (c :: rest) || containsSeq pat rest

/-- Normalize a tag value: strip one leading `#` if present (spec §4.2). -/
def normalizeTag (v : String) : String :=
  if v.startsWith "#" then v.drop 1 else v

/-- Modelled from the spec (§4.2, §7): the Predicate Evaluator.
`rm pattern subject` is the regular-expression oracle used by
`matchesRegex`; the spec's recovery policy (an invalid pattern, an absent
attribute, an unparsable value, or an operator illegal for the source's
comparison class all make the condition false) is built in. String
comparisons are case-insensitive for `contains`/`startsWith`/`endsWith`
and case-sensitive for `is`/`isNot`. -/
def evaluate (rm : String → String → Bool) (cond : Condition) (attrs : AttributeSet) : Bool :=
  match attrs cond.source with
  | .str s =>
    match cond.operator with
    | "is" => s = cond.value
    | "isNot" => s ≠ cond.value
    | "contains" => containsSeq cond.value.toLower.toList s.toLower.toList
    | "doesNotContain" => !containsSeq cond.value.toLower.toList s.toLower.toList
    | "startsWith" => s.toLower.startsWith cond.value.toLower
    | "endsWith" => s.toLower.endsWith cond.value.toLower
    | "matchesRegex" => rm cond.value s
    | _ => false
  | .strs l =>
    match cond.operator with
    | "contains" => l.contains (normalizeTag cond.value)
    | "doesNotContain" => !l.contains (normalizeTag cond.value)
    | _ => false
  | .num n =>
    match cond.value.toInt? with
    | none => false
    | some v =>
      match cond.operator with
      | "is" => n = v
      | "isNot" => n ≠ v
      | "greaterThan" => n > v
      | "lessThan" => n < v
      | "greaterOrEqual" => n ≥ v
      | "lessOrEqual" => n ≤ v
      | _ => false
  | .boolean b =>
    match cond.operator with
    | "is" => (cond.value = "true" && b) || (cond.value = "false" && !b)
    | _ => false
  | .absent => false

/-- Modelled from the spec (§4.3): the Rule Matcher. A disabled rule never
matches; a rule with zero conditions never matches; otherwise `ALL` is the
conjunction and `ANY` the disjunction of the per-condition verdicts. -/
def Rule.ruleMatches (rm : String → String → Bool) (rule : Rule) (attrs : AttributeSet) : Bool :=
  if !rule.enabled then false
  else if rule.conditions.isEmpty then false
  else
    match rule.combinator with
    | .all => rule.conditions.all (fun c => evaluate rm c attrs)
    | .any => rule.conditions.any (fun c => evaluate rm c attrs)

/-- Modelled from the spec (§4.5): the Ruling Resolver `checkRuling`,
restricted to one category's stored rule list and the item's resolved
attribute set: scan the list in stored order and return the first rule the
Rule Matcher accepts, or `null` when none matches. -/
def checkRuling (rm : String → String → Bool) (rules : List Rule) (attrs : AttributeSet) :
    Option Rule :=
  rules.find? (fun r => r.ruleMatches rm attrs)

/-- Modelled from the spec (§4.4): `saveRule` upserts by id. With an existing
id it replaces content in place without moving position and returns whether
the new content differs from the stored version; with a fresh id it inserts
at the end and returns true. -/
def saveRule (rules : List Rule) (newRule : Rule) : List Rule × Bool :=
  match rules.find? (fun r => r.id = newRule.id) with
  | some r0 =>
    (rules.map (fun r => if r.id = newRule.id then newRule else r), decide (r0 ≠ newRule))
  | none => (rules ++ [newRule], true)

/-- Modelled from the spec (§4.4): `deleteRule` removes the rule with the
given id and returns whether anything changed. -/
def deleteRule (rules : List Rule) (rid : String) : List Rule × Bool :=
  (rules.filter (fun r => r.id ≠ rid), rules.any (fun r => r.id = rid))

/- ## Items and the ruling environment -/

/-- An item as consumed by the picker and the managers (`Item` of
`IconicPlugin`, a caller-side record; fields per spec §3): identity, display
name, optional explicit icon and color, and an optional contextual default
icon supplied by the item's category manager. -/
structure Item where
  id : String
  category : String
  name : String
  icon : Option String
  color : Option String
  iconDefault : Option String
deriving DecidableEq

/-- The collaborators a `checkRuling` call goes through: the regex oracle,
the per-category ordered rule lists of the Rule Store, and the per-category
Attribute Resolver (spec §2, §6). -/
structure RuleEnv where
  regexMatch : String → String → Bool
  rules : String → List Rule
  resolve : String → String → AttributeSet

/-- The term `this.plugin.ruleManager.checkRuling(item.category, item.id)` as called
from `IconPicker.updateOverruleReminder` and the managers. -/
def RuleEnv.ruling (env : RuleEnv) (category id : String) : Option Rule :=
  checkRuling env.regexMatch (env.rules category) (env.resolve category id)

/-- JS truthiness of `item.icon || item.color` (IconPicker.ts line 913). -/
def Item.explicitValues (item : Item) : Bool :=
  optTruthy item.icon || optTruthy item.color

/- ## The picker's ruling reminder (IconPicker.updateOverruleReminder) -/

/-- Outcome of `updateOverruleReminder`: no callout, or a callout in the
"override" or the "overrule" wording, remembering the rule it reports. -/
inductive Reminder where
  | silent
  | override (rule : Rule)
  | overrule (rule : Rule)
deriving DecidableEq

/-- One step of the multi-item loop of `updateOverruleReminder`
(IconPicker.ts lines 910–923): accumulate `hasOverride`, `hasOverrule`
and the first non-null ruling. -/
def reminderStep (env : RuleEnv) (acc : Bool × Bool × Option Rule) (item : Item) :
    Bool × Bool × Option Rule :=
  match env.ruling item.category item.id with
  | none => acc
  | some itemRule =>
    (acc.1 || item.explicitValues,
     acc.2.1 || !item.explicitValues,
     match acc.2.2 with
     | some rule => some rule
     | none => some itemRule)

/-- The term `IconPicker.updateOverruleReminder` (IconPicker.ts lines 900–979),
embedded as the pure decision of which reminder the picker displays for the
current selection. With more than one item it scans all items, reporting
"override" exactly when some ruled item has explicit values and none is
purely rule-driven; with a single item it reports the variant from that
item's own explicit values. The picker is never opened on an empty
selection, so the `[]` case is immaterial. -/
def updateOverruleReminder (env : RuleEnv) (items : List Item) : Reminder :=
  if items.length > 1 then
    let scan := items.foldl (reminderStep env) (false, false, none)
    match scan.2.2 with
    | none => .silent
    | some rule => if scan.1 && !scan.2.1 then .override rule else .overrule rule
  else
    match items with
    | [item] =>
      match env.ruling item.category item.id with
      | none => .silent
      | some rule => if item.explicitValues then .override rule else .overrule rule
    | _ => .silent

/- ## The rule-editor callback of the ruling reminder (IconPicker.ts 946–959) -/

/-- The `RuleEditor.open` completion callback installed by
`updateOverruleReminder` (IconPicker.ts lines 946–959): a non-null
`newRule` is saved, a null one deletes the displayed rule, and the
dependent managers for the page are refreshed exactly when the returned
boolean is true. Result: the category's new rule list and whether
`refreshManagers` was invoked. -/
def onRuleEditorClose (rules : List Rule) (rule : Rule) (newRule : Option Rule) :
    List Rule × Bool :=
  let isRulingChanged :=
    match newRule with
    | some nr => saveRule rules nr
    | none => deleteRule rules rule.id
  (isRulingChanged.1, isRulingChanged.2)

/- ## The DOM rendering routine (IconManager.refreshIcon) -/

/-- The icon/color record `refreshIcon` receives (`Item | Icon` of
`IconicPlugin`): an `Icon` payload has no `iconDefault` field, which is
modelled as `iconDefault = none` (the code guards every access with
`'iconDefault' in item`). -/
structure IconSpec where
  icon : Option String
  color : Option String
  iconDefault : Option String
deriving DecidableEq

/-- What is rendered inside the icon element: nothing, an SVG icon (with the
inline `color` style of its `.svg-icon` node), or an emoji div (with its
inline `filter` style). -/
inductive ElemContent where
  | empty
  | svgIcon (name : String) (color : Option String)
  | emoji (ch : String) (filter : Option String)
deriving DecidableEq

/-- The observable state of an icon element that `refreshIcon` reads and
writes: its class list, visibility, the `dataset.iconicId` /
`dataset.iconicColor` tracking attributes (`none` models a deleted dataset
entry), and the rendered content. -/
structure ElemState where
  classes : List String
  hidden : Bool
  iconicId : Option String
  iconicColor : Option String
  content : ElemContent
deriving DecidableEq

/-- The term `el.addClass(c)` — a no-op when the class is already present. -/
def addClass (el : ElemState) (c : String) : ElemState :=
  if el.classes.contains c then el else { el with classes := c :: el.classes }

/-- The term `el.removeClass(c)`. -/
def removeClass (el : ElemState) (c : String) : ElemState :=
  { el with classes := el.classes.filter (fun x => x ≠ c) }

/-- The ambient state `refreshIcon` consults: the `showAllFolderIcons`
setting, the registered icon ids (`ICONS`) and emoji keys (`EMOJIS`), and
the color conversions of `ColorUtils` (whose source file is not in `src/`;
they stay abstract functions). -/
structure RenderConfig where
  showAllFolderIcons : Bool
  icons : List String
  emojis : List String
  toRgb : String → String
  hslFilter : String → String

/-- The term `setIcon(iconEl, name)` of the Obsidian API, as observed through
`ElemState`: installs an SVG child for `name` with no inline color. -/
def setIconContent (name : String) : ElemContent :=
  .svgIcon name none

/-- The `effectiveIcon` computation at the top of `refreshIcon`
(IconManager.ts lines 32–44). It reads the element only through the
presence of the `collapse-icon` class. -/
def effectiveIcon (cfg : RenderConfig) (item : IconSpec) (hasCollapse : Bool) : Option String :=
  if optTruthy item.icon then item.icon
  else if hasCollapse then
    if cfg.showAllFolderIcons && optTruthy item.iconDefault then item.iconDefault
    else some "right-triangle"
  else if optTruthy item.iconDefault then item.iconDefault
  else none

/-- JS strict equality `effectiveIcon === prevIcon` between a
`string | null` and a `string`: `null` never equals a string. -/
def strictEqOpt (o : Option String) (s : String) : Bool :=
  match o with
  | some v => v = s
  | none => false

/-- The early-exit test of `refreshIcon` (IconManager.ts line 51):
`effectiveIcon === prevIcon && effectiveColor === prevColor`. -/
def earlyExit (cfg : RenderConfig) (item : IconSpec) (el : ElemState) : Bool :=
  strictEqOpt (effectiveIcon cfg item (el.classes.contains "collapse-icon"))
      (orEmpty el.iconicId)
    && orEmpty item.color = orEmpty el.iconicColor

/-- The icon-drawing branch of `refreshIcon` (IconManager.ts lines 62–85). -/
def renderBranch (cfg : RenderConfig) (item : IconSpec) (el : ElemState) : ElemState :=
  if optTruthy item.icon then
    let ic := orEmpty item.icon
    let el :=
      if cfg.icons.contains ic then { el with content := setIconContent ic }
      else if cfg.emojis.contains ic then
        { el with content := (ElemContent.emoji ic
            (if optTruthy item.color then some (cfg.hslFilter (orEmpty item.color)) else none)) }
      else el
    { el with hidden := false }
  else if el.classes.contains "collapse-icon" then
    if cfg.showAllFolderIcons && optTruthy item.iconDefault then
      { el with content := setIconContent (orEmpty item.iconDefault), hidden := false }
    else
      let el := { el with content := setIconContent "right-triangle" }
      let el := removeClass el "iconic-icon"
      { el with hidden := false }
  else if optTruthy item.iconDefault then
    { el with content := setIconContent (orEmpty item.iconDefault), hidden := false }
  else
    let el := removeClass el "iconic-icon"
    { el with hidden := true }

/-- The `.svg-icon` inline-color step of `refreshIcon`
(IconManager.ts lines 87–94): only applies when an SVG child exists. -/
def svgColorStep (cfg : RenderConfig) (item : IconSpec) (el : ElemState) : ElemState :=
  match el.content with
  | .svgIcon n _ =>
    if optTruthy item.color then
      { el with content := .svgIcon n (some (cfg.toRgb (orEmpty item.color))) }
    else
      { el with content := .svgIcon n none }
  | _ => el

/-- The dataset bookkeeping of `refreshIcon` (IconManager.ts lines 96–106):
a truthy effective icon/color is recorded, a falsy one deletes the entry. -/
def datasetStep (cfg : RenderConfig) (item : IconSpec) (el : ElemState) : ElemState :=
  let effIcon := effectiveIcon cfg item (el.classes.contains "collapse-icon")
  let el :=
    if optTruthy effIcon then { el with iconicId := effIcon }
    else { el with iconicId := none }
  if orEmpty item.color ≠ "" then { el with iconicColor := some (orEmpty item.color) }
  else { el with iconicColor := none }

/-- The term `IconManager.refreshIcon` (IconManager.ts lines 31–113) as a transformer
on the element state. The `onClick` listener juggling has no effect on the
element state and is not modelled. -/
def refreshIcon (cfg : RenderConfig) (item : IconSpec) (el : ElemState) : ElemState :=
  if earlyExit cfg item el then el
  else
    let el := addClass el "iconic-icon"
    let el := renderBranch cfg item el
    let el := svgColorStep cfg item el
    datasetStep cfg item el

/- ## The suggestion-popover rendering path (SuggestionIconManager.refreshFileIcon) -/

/-- View a rule as the `Item | Icon` payload the picker and the suggestion
manager hand to `refreshIcon` (a `RuleItem` carries `icon` and `color`). -/
def Rule.toIconSpec (r : Rule) : IconSpec :=
  { icon := r.icon, color := r.color, iconDefault := none }

/-- View an item as the payload handed to `refreshIcon`. -/
def Item.toIconSpec (item : Item) : IconSpec :=
  { icon := item.icon, color := item.color, iconDefault := item.iconDefault }

/-- The icon source chosen by `SuggestionIconManager.refreshFileIcon`
(SuggestionIconManager.ts line 161):
`this.plugin.ruleManager.checkRuling('file', fileId) ?? file` — the matched
rule when there is one, the file item itself otherwise. -/
def suggestionRenderSource (env : RuleEnv) (file : Item) : IconSpec :=
  match env.ruling "file" file.id with
  | some r => r.toIconSpec
  | none => file.toIconSpec

/-- The term `SuggestionIconManager.refreshFileIcon` (SuggestionIconManager.ts lines
156–173) restricted to its effect on the suggestion-flair element: render
the chosen source through `refreshIcon`. -/
def refreshFileIcon (cfg : RenderConfig) (env : RuleEnv) (file : Item) (el : ElemState) :
    ElemState :=
  refreshIcon cfg (suggestionRenderSource env file) el

/- ## Icon packs: registry and the two installPack selection predicates -/

/-- The term `IconPackMeta` (IconPacks.ts lines 8–17). The optional `recursive?`
field is a `Bool` here: an absent field is falsy in the `if` that reads it. -/
structure IconPackMeta where
  id : String
  name : String
  packPrefix : String
  version : String
  downloadUrl : String
  path : String
  count : Nat
  recursive : Bool := false
deriving DecidableEq

/-- The term `ICON_PACK_REGISTRY` (IconPacks.ts lines 30–124). -/
def ICON_PACK_REGISTRY : List IconPackMeta := [
  { id := "font-awesome-solid", name := "Font Awesome Solid", packPrefix := "fas-",
    version := "6.7.2",
    downloadUrl := "https://github.com/FortAwesome/Font-Awesome/archive/refs/tags/6.7.2.zip",
    path := "Font-Awesome-6.7.2/svgs/solid", count := 1400 },
  { id := "font-awesome-regular", name := "Font Awesome Regular", packPrefix := "far-",
    version := "6.7.2",
    downloadUrl := "https://github.com/FortAwesome/Font-Awesome/archive/refs/tags/6.7.2.zip",
    path := "Font-Awesome-6.7.2/svgs/regular", count := 163 },
  { id := "font-awesome-brands", name := "Font Awesome Brands", packPrefix := "fab-",
    version := "6.7.2",
    downloadUrl := "https://github.com/FortAwesome/Font-Awesome/archive/refs/tags/6.7.2.zip",
    path := "Font-Awesome-6.7.2/svgs/brands", count := 500 },
  { id := "simple-icons", name := "Simple Icons", packPrefix := "si-",
    version := "14.8.0",
    downloadUrl := "https://github.com/simple-icons/simple-icons/archive/refs/tags/14.8.0.zip",
    path := "simple-icons-14.8.0/icons", count := 3200 },
  { id := "remix-icons", name := "Remix Icons", packPrefix := "ri-",
    version := "4.6.0",
    downloadUrl := "https://github.com/Remix-Design/RemixIcon/archive/refs/tags/v4.6.0.zip",
    path := "RemixIcon-4.6.0/icons", count := 2800, recursive := true },
  { id := "boxicons", name := "Boxicons", packPrefix := "bx-",
    version := "2.1.4",
    downloadUrl := "https://github.com/atisawd/boxicons/archive/refs/tags/v2.1.4.zip",
    path := "boxicons-2.1.4/svg", count := 1600, recursive := true },
  { id := "tabler-icons-outline", name := "Tabler Icons Outline", packPrefix := "tio-",
    version := "3.36.1",
    downloadUrl := "https://github.com/tabler/tabler-icons/archive/refs/tags/v3.36.1.zip",
    path := "tabler-icons-3.36.1/icons/outline", count := 5000 },
  { id := "tabler-icons-filled", name := "Tabler Icons Filled", packPrefix := "tif-",
    version := "3.36.1",
    downloadUrl := "https://github.com/tabler/tabler-icons/archive/refs/tags/v3.36.1.zip",
    path := "tabler-icons-3.36.1/icons/filled", count := 1000 },
  { id := "feather-icons", name := "Feather Icons", packPrefix := "fi-",
    version := "4.29.2",
    downloadUrl := "https://github.com/feathericons/feather/archive/refs/tags/v4.29.2.zip",
    path := "feather-4.29.2/icons", count := 287 },
  { id := "coolicons", name := "coolicons", packPrefix := "ci-",
    version := "4.1",
    downloadUrl := "https://github.com/krystonschwarze/coolicons/releases/download/v4.1/coolicons.v4.1.zip",
    path := "cooliocns SVG", count := 440, recursive := true }
]

/-- JS `String.prototype.startsWith`, computed on character lists. -/
def strStartsWith (s pat : String) : Bool :=
  pat.toList.isPrefixOf s.toList

/-- JS `String.prototype.endsWith`, computed on character lists. -/
def strEndsWith (s pat : String) : Bool :=
  pat.toList.isSuffixOf s.toList

/-- The term `filePath.substring(0, filePath.lastIndexOf('/') + 1)`: the directory of
a path, up to and including the last slash, `""` when there is no slash. -/
def fileDirOf (s : String) : String :=
  String.mk ((s.toList.reverse.dropWhile (fun c => c ≠ '/')).reverse)

/-- The file-selection predicate of `installPack` in `src/unnamed/part_000`
(lines 88–99): keep `.svg` files, recursing into subdirectories of
`packMeta.path` when the registry marks the pack `recursive`, otherwise
requiring the file to sit directly in `packMeta.path`. -/
def installSelects (packMeta : IconPackMeta) (filePath : String) : Bool :=
  if !strEndsWith filePath ".svg" then false
  else
    let pathPrefix := packMeta.path ++ "/"
    if packMeta.recursive then strStartsWith filePath pathPrefix
    else fileDirOf filePath = pathPrefix

/-- The file-selection predicate of `installPack` in `src/unnamed/part_001`
(lines 83–100): identical except that recursive matching is keyed on the
pack id being `remix-icons` or `boxicons` instead of the registry flag. -/
def installSelectsLegacy (packMeta : IconPackMeta) (filePath : String) : Bool :=
  if !strEndsWith filePath ".svg" then false
  else
    let pathPrefix := packMeta.path ++ "/"
    if packMeta.id = "remix-icons" || packMeta.id = "boxicons" then
      strStartsWith filePath pathPrefix
    else fileDirOf filePath = pathPrefix

/- ## SVG processing (IconPacks.processPackSvg) -/

/-- The whitespace class used by the JS `\s`, `trim` and `split(/\s+/)`
semantics that `processPackSvg` relies on, restricted to its ASCII members
(the exotic Unicode space code points never occur in viewBox strings). -/
def isJsWs (c : Char) : Bool :=
  c = ' ' || c = '\t' || c = '\n' || c = '\r' || c = Char.ofNat 11 || c = Char.ofNat 12

/-- The term `String.prototype.trim` on a character list. -/
def jsTrim (l : List Char) : List Char :=
  ((l.dropWhile isJsWs).reverse.dropWhile isJsWs).reverse

/-- A JS quote delimiter, `"` or `'`, as used by the `["']` classes of the
viewBox regular expression. -/
def isQuoteCh (c : Char) : Bool :=
  c = '"' || c = Char.ofNat 39

/-- One anchored attempt of `/viewBox=["']([^"']+)["']/` at the head of `l`:
the literal `viewBox=`, an opening quote, a non-empty maximal run of
non-quote characters, and a closing quote. Returns the captured run. -/
def matchViewBoxAt (l : List Char) : Option (List Char) :=
  if ("viewBox=".toList).isPrefixOf l then
    match l.drop 8 with
    | q :: rest =>
      if isQuoteCh q then
        let cap := rest.takeWhile (fun c => !isQuoteCh c)
        match rest.drop cap.length with
        | _ :: _ => if cap.isEmpty then none else some cap
        | [] => none
      else none
    | [] => none
  else none

/-- The term `svgString.match(/viewBox=["']([^"']+)["']/)` (IconPacks.ts line 132):
the capture of the leftmost match, scanning attempt positions left to
right exactly as the regex engine does. -/
def viewBoxCapture : List Char → Option (List Char)
  | [] => none
  | c :: rest =>
    match matchViewBoxAt (c :: rest) with
    | some cap => some cap
    | none => viewBoxCapture rest

/-- The term `String.prototype.split(/\s+/)` (IconPacks.ts line 135), with JS's
boundary behaviour: a leading or trailing separator run contributes an
empty field, and the empty string yields `[""]`. The `fuel` argument (at
least the list length at every call) makes the recursion structural. -/
def splitWsGo : Nat → List Char → List Char → List (List Char)
  | 0, _, acc => [acc.reverse]
  | _ + 1, [], acc => [acc.reverse]
  | fuel + 1, c :: rest, acc =>
    if isJsWs c then acc.reverse :: splitWsGo fuel (rest.dropWhile isJsWs) []
    else splitWsGo fuel rest (c :: acc)

/-- The term `split(/\s+/)` of a character list. -/
def splitWs (l : List Char) : List (List Char) :=
  splitWsGo l.length l []

/-- Are all characters decimal digits? -/
def allDigits (l : List Char) : Bool :=
  l.all (fun c => c.isDigit)

/-- Value of a digit string. -/
def digitsVal (l : List Char) : Nat :=
  l.foldl (fun a c => a * 10 + (c.toNat - 48)) 0

/-- An exact rational, kept unnormalized: the value is `num / den`, with
`den` never zero. This models the numeric values flowing through
`processPackSvg` (JS floats, which are exact on the integer viewBox data
that function reads) while staying kernel-computable. -/
structure JsRat where
  num : Int
  den : Int
deriving DecidableEq

/-- Embed a natural number. -/
def JsRat.ofNat (n : Nat) : JsRat :=
  { num := n, den := 1 }

/-- Value equality of unnormalized rationals (denominators nonzero). -/
def JsRat.eqv (a b : JsRat) : Bool :=
  a.num * b.den = b.num * a.den

/-- Is the value zero? -/
def JsRat.isZero (a : JsRat) : Bool :=
  a.num = 0

/-- Exact division of values: `(a.num/a.den) / (b.num/b.den)`. -/
def JsRat.div (a b : JsRat) : JsRat :=
  { num := a.num * b.den, den := a.den * b.num }

/-- Negate the value. -/
def JsRat.neg (a : JsRat) : JsRat :=
  { num := -a.num, den := a.den }

/-- Scale the value by `10 ^ e` for an integer exponent. -/
def JsRat.scalePow10 (a : JsRat) (e : Int) : JsRat :=
  match e with
  | .ofNat k => { num := a.num * ((10 : Nat) ^ k : Nat), den := a.den }
  | .negSucc k => { num := a.num, den := a.den * ((10 : Nat) ^ (k + 1) : Nat) }

/-- The mantissa part of a JS `Number(...)` decimal literal:
`digits`, `digits.`, `digits.digits` or `.digits`; the exact value is
`(intPart * 10 ^ fracLen + fracPart) / 10 ^ fracLen`. -/
def jsNumMantissa (l : List Char) : Option JsRat :=
  let ip := l.takeWhile (fun c => c ≠ '.')
  match l.drop ip.length with
  | [] =>
    if !ip.isEmpty && allDigits ip then some (JsRat.ofNat (digitsVal ip)) else none
  | _ :: fp =>
    if allDigits ip && allDigits fp && (!ip.isEmpty || !fp.isEmpty) then
      some { num := (digitsVal ip) * ((10 : Nat) ^ fp.length : Nat) + digitsVal fp,
             den := ((10 : Nat) ^ fp.length : Nat) }
    else none

/-- The exponent suffix of a JS `Number(...)` literal: empty, or
`e`/`E` followed by an optional sign and at least one digit. -/
def jsNumExp (l : List Char) : Option Int :=
  match l with
  | [] => some 0
  | _ :: rest =>
    match rest with
    | '+' :: ds => if !ds.isEmpty && allDigits ds then some (digitsVal ds) else none
    | '-' :: ds => if !ds.isEmpty && allDigits ds then some (-(digitsVal ds : Int)) else none
    | ds => if !ds.isEmpty && allDigits ds then some (digitsVal ds) else none

/-- The term `Number(token)` as applied to the whitespace-free tokens produced by
`split(/\s+/)` (IconPacks.ts line 135): the empty string is 0, a signed
decimal literal (optionally with fraction and exponent) is its exact value,
anything else is NaN (`none`). Values are exact rationals; the `Infinity`
literal and hex/octal/binary prefixes, which cannot appear in viewBox data,
are left to NaN. -/
def jsNum (l : List Char) : Option JsRat :=
  if l.isEmpty then some (JsRat.ofNat 0)
  else
    match l with
    | '+' :: body =>
      let mant := body.takeWhile (fun c => c ≠ 'e' && c ≠ 'E')
      match jsNumMantissa mant, jsNumExp (body.drop mant.length) with
      | some m, some e => some (m.scalePow10 e)
      | _, _ => none
    | '-' :: body =>
      let mant := body.takeWhile (fun c => c ≠ 'e' && c ≠ 'E')
      match jsNumMantissa mant, jsNumExp (body.drop mant.length) with
      | some m, some e => some ((m.scalePow10 e).neg)
      | _, _ => none
    | body =>
      let mant := body.takeWhile (fun c => c ≠ 'e' && c ≠ 'E')
      match jsNumMantissa mant, jsNumExp (body.drop mant.length) with
      | some m, some e => some (m.scalePow10 e)
      | _, _ => none

/-- The term `arr.map(Number)[i]` for the destructuring on IconPacks.ts line 135:
a missing entry (`undefined`) and NaN are conflated as `none`; both are
falsy in the `!vbWidth || !vbHeight` guard that consumes this. -/
def entryNum (entries : List (List Char)) (i : Nat) : Option JsRat :=
  match entries.get? i with
  | none => none
  | some t => jsNum t

/-- Case-insensitive character equality, for the `/i` flag. -/
def ciEq (a b : Char) : Bool :=
  a.toLower = b.toLower

/-- Case-insensitive prefix test. -/
def ciPrefix : List Char → List Char → Bool
  | [], _ => true
  | _ :: _, [] => false
  | p :: ps, c :: cs => ciEq p c && ciPrefix ps cs

/-- Index of the last position of `l` at which `pat` starts
(case-insensitively), if any: the greedy `([\s\S]*)` backs off to the
final `</svg>`. -/
def lastCiIdx (pat : List Char) : List Char → Option Nat
  | [] => none
  | c :: rest =>
    match lastCiIdx pat rest with
    | some k => some (k + 1)
    | none => if ciPrefix pat (c :: rest) then some 0 else none

/-- One anchored attempt of `/<svg[^>]*>([\s\S]*)<\/svg>/i` at the head of
`l`: the literal `<svg`, everything up to the first `>`, then a greedy
capture ending at the last case-insensitive `</svg>`. -/
def matchInnerAt (l : List Char) : Option (List Char) :=
  if ciPrefix ("<svg".toList) l then
    let rest := l.drop 4
    let attrs := rest.takeWhile (fun c => c ≠ '>')
    match rest.drop attrs.length with
    | _ :: rest2 =>
      match lastCiIdx ("</svg>".toList) rest2 with
      | some k => some (rest2.take k)
      | none => none
    | [] => none
  else none

/-- The term `svgString.match(/<svg[^>]*>([\s\S]*)<\/svg>/i)` (IconPacks.ts line
139): the capture of the leftmost match. -/
def innerCapture : List Char → Option (List Char)
  | [] => none
  | c :: rest =>
    match matchInnerAt (c :: rest) with
    | some cap => some cap
    | none => innerCapture rest

/-- Worker for `strokeReplace`; the fuel argument (at least the list length
at every call) makes the recursion structural. -/
def strokeReplaceGo : Nat → List Char → List Char
  | 0, l => l
  | _ + 1, [] => []
  | fuel + 1, c :: rest =>
    if ("stroke=\"".toList).isPrefixOf (c :: rest) then
      let after := (c :: rest).drop 8
      if ("none".toList).isPrefixOf after || ("currentColor".toList).isPrefixOf after then
        c :: strokeReplaceGo fuel rest
      else
        let run := after.takeWhile (fun x => x ≠ '"')
        match after.drop run.length with
        | _ :: rest2 => ("stroke=\"currentColor\"".toList) ++ strokeReplaceGo fuel rest2
        | [] => c :: strokeReplaceGo fuel rest
    else c :: strokeReplaceGo fuel rest

/-- The term `innerSvg.replace(/stroke="(?!none|currentColor)[^"]*"/g,
'stroke="currentColor"')` (IconPacks.ts line 146): a left-to-right,
non-overlapping global replacement; the negative lookahead skips values
already starting with `none` or `currentColor`, and scanning resumes after
each replacement. The fuel (at least the list length at every call) makes
the recursion structural. -/
def strokeReplace (l : List Char) : List Char :=
  strokeReplaceGo l.length l

/-- The unscaled wrapper of IconPacks.ts line 155. -/
def gWrap (inner : String) : String :=
  "<g fill=\"currentColor\">" ++ inner ++ "</g>"

/-- The scaling wrapper of IconPacks.ts line 153. -/
def gScaleWrap (sx sy inner : String) : String :=
  "<g transform=\"scale(" ++ sx ++ ", " ++ sy ++ ")\" fill=\"currentColor\">" ++ inner ++ "</g>"

/-- The term `processPackSvg` (IconPacks.ts lines 130–159). `numPrint` abstracts the
template-literal printing of the IEEE-754 scale factors `100 / vbWidth` and
`100 / vbHeight`, whose exact decimal rendering is the one aspect of the
function not modelled (the factors themselves are exact rationals here). -/
def processPackSvg (numPrint : JsRat → String) (svgString : String) : Option String :=
  match viewBoxCapture svgString.toList with
  | none => none
  | some cap =>
    let entries := splitWs cap
    match entryNum entries 2, entryNum entries 3 with
    | some vbWidth, some vbHeight =>
      if vbWidth.isZero || vbHeight.isZero then none
      else
        match innerCapture svgString.toList with
        | none => none
        | some inner =>
          let innerTrim := jsTrim inner
          if innerTrim.isEmpty then none
          else
            let innerSvg := String.mk (strokeReplace innerTrim)
            if !vbWidth.eqv (JsRat.ofNat 100) || !vbHeight.eqv (JsRat.ofNat 100) then
              some (gScaleWrap (numPrint ((JsRat.ofNat 100).div vbWidth))
                (numPrint ((JsRat.ofNat 100).div vbHeight)) innerSvg)
            else some (gWrap innerSvg)
    | _, _ => none

/- ## Concrete fixtures used by witnesses and counterexamples -/

/-- A regex oracle that matches nothing (no claim exercises `matchesRegex`). -/
def rmNone : String → String → Bool := fun _ _ => false

/-- An attribute set exposing only the item's name. -/
def nameAttr (id : String) : AttributeSet :=
  fun src => if src = "name" then .str id else .absent

/-- A rule assigning the `folder` icon to items named `note.md` (the rule `R`
of the spec's §8 override-precedence scenario). -/
def ruleFolder : Rule :=
  { id := "R", name := "Markdown notes", icon := some "folder", color := none,
    combinator := .any,
    conditions := [{ source := "name", operator := "is", value := "note.md" }],
    enabled := true }

/-- A second enabled rule that also matches items named `note.md`. -/
def ruleTag : Rule :=
  { id := "R2", name := "Also notes", icon := some "tag", color := none,
    combinator := .all,
    conditions := [{ source := "name", operator := "endsWith", value := ".MD" }],
    enabled := true }

/-- An environment whose `file` category stores exactly `ruleFolder`. -/
def envTest : RuleEnv :=
  { regexMatch := rmNone,
    rules := fun cat => if cat = "file" then [ruleFolder] else [],
    resolve := fun _ id => nameAttr id }

/-- An environment with empty rule stores. -/
def envEmpty : RuleEnv :=
  { regexMatch := rmNone, rules := fun _ => [], resolve := fun _ id => nameAttr id }

/-- The term `note.md` with an explicit `star` icon (the spec §8 scenario's item). -/
def itemA : Item :=
  { id := "note.md", category := "file", name := "note.md", icon := some "star",
    color := none, iconDefault := some "lucide-file" }

/-- The term `note.md` with no explicit icon or color. -/
def itemB : Item :=
  { id := "note.md", category := "file", name := "note.md", icon := none,
    color := none, iconDefault := some "lucide-file" }

/-- The term `note.md` with an explicit color only. -/
def itemRed : Item :=
  { id := "note.md", category := "file", name := "note.md", icon := none,
    color := some "red", iconDefault := some "lucide-file" }

/-- A rendering configuration for the fixtures. -/
def cfgTest : RenderConfig :=
  { showAllFolderIcons := false,
    icons := ["star", "folder", "tag", "lucide-file", "right-triangle"],
    emojis := [], toRgb := fun c => "rgb-" ++ c, hslFilter := fun c => "hsl-" ++ c }

/-- A fresh, untracked icon element. -/
def el0 : ElemState :=
  { classes := [], hidden := false, iconicId := none, iconicColor := none, content := .empty }

/-- A fresh collapse-chevron element. -/
def elColl : ElemState :=
  { classes := ["collapse-icon"], hidden := false, iconicId := none, iconicColor := none,
    content := .empty }

/-- A payload with neither explicit values nor a default icon. -/
def specBare : IconSpec := { icon := none, color := none, iconDefault := none }

/-- A payload with only a default icon. -/
def specDefault : IconSpec := { icon := none, color := none, iconDefault := some "lucide-file" }

/-- A concrete printer for the scale factors, exact as a fraction. -/
def qPrint (q : JsRat) : String :=
  toString q.num ++ "/" ++ toString q.den

/- ## Claim C3: first-match-wins resolution -/

/-- C3: `checkRuling` returns the first enabled rule in the category's stored
rule order for which the Rule Matcher returns true, and null when no enabled
rule matches (the matcher itself rejects disabled rules); in particular, with
R1 stored ahead of a later R2 and matching the item, `checkRuling` returns R1. -/
theorem checkRuling_first_match_wins (rm : String → String → Bool) (rules : List Rule)
    (attrs : AttributeSet) :
    (checkRuling rm rules attrs = none ↔ ∀ r ∈ rules, r.ruleMatches rm attrs = false)
    ∧ (∀ r : Rule, checkRuling rm rules attrs = some r ↔
        r.ruleMatches rm attrs = true
        ∧ ∃ i, ∃ h : i < rules.length, rules[i] = r
            ∧ ∀ j, (hj : j < i) → rules[j].ruleMatches rm attrs = false)
    ∧ (∀ (r1 r2 : Rule) (mid suf : List Rule), r1.ruleMatches rm attrs = true →
        checkRuling rm (r1 :: (mid ++ r2 :: suf)) attrs = some r1) := by
  refine ⟨?_, ?_, ?_⟩
  · simp only [checkRuling, List.find?_eq_none, Bool.not_eq_true]
  · intro r
    rw [checkRuling, List.find?_eq_some_iff_getElem]
    simp
  · intro r1 r2 mid suf h1
    exact List.find?_cons_of_pos _ h1

/-- Concrete instance of C3: with `ruleFolder` stored ahead of `ruleTag`, both
matching `note.md`, the earlier rule wins. -/
theorem checkRuling_first_match_wins_witness :
    checkRuling rmNone [ruleFolder, ruleTag] (nameAttr "note.md") = some ruleFolder := by
  have h := (checkRuling_first_match_wins rmNone [ruleFolder, ruleTag]
    (nameAttr "note.md")).2.2 ruleFolder ruleTag [] [] (by decide)
  simp only [List.nil_append] at h
  exact h

/- ## Claim C4: empty and disabled rules never match -/

/-- C4: a rule with an empty condition list never matches any attribute set,
and a disabled rule never matches regardless of its conditions. -/
theorem ruleMatches_empty_or_disabled (rm : String → String → Bool) (rule : Rule)
    (attrs : AttributeSet) :
    (rule.conditions = [] → rule.ruleMatches rm attrs = false)
    ∧ (rule.enabled = false → rule.ruleMatches rm attrs = false) := by
  constructor
  · intro h
    simp [Rule.ruleMatches, h]
  · intro h
    simp [Rule.ruleMatches, h]

/-- Concrete instance of C4: an enabled empty rule and a disabled copy of a
matching rule both fail on `note.md`. -/
theorem ruleMatches_empty_or_disabled_witness :
    Rule.ruleMatches rmNone
      { ruleFolder with conditions := [] } (nameAttr "note.md") = false
    ∧ Rule.ruleMatches rmNone
      { ruleFolder with enabled := false } (nameAttr "note.md") = false := by
  constructor
  · exact (ruleMatches_empty_or_disabled rmNone { ruleFolder with conditions := [] }
      (nameAttr "note.md")).1 rfl
  · exact (ruleMatches_empty_or_disabled rmNone { ruleFolder with enabled := false }
      (nameAttr "note.md")).2 rfl

/- ## Claim C1: mixed selections bias the reminder toward "overrule" -/

/-- Does `checkRuling` report a rule for this item? -/
def ruledItem (env : RuleEnv) (item : Item) : Bool :=
  (env.ruling item.category item.id).isSome

/-- The multi-item scan of `updateOverruleReminder`, characterized: the two
flags are `any`-folds over the ruled items, and the reported rule is the
first non-null ruling. -/
theorem reminderScan_spec (env : RuleEnv) (items : List Item) (acc : Bool × Bool × Option Rule) :
    items.foldl (reminderStep env) acc =
      (acc.1 || items.any (fun i => ruledItem env i && i.explicitValues),
       acc.2.1 || items.any (fun i => ruledItem env i && !i.explicitValues),
       match acc.2.2 with
       | some r => some r
       | none => items.findSome? (fun i => env.ruling i.category i.id)) := by
  induction items generalizing acc with
  | nil =>
    simp only [List.foldl_nil, List.any_nil, Bool.or_false, List.findSome?_nil]
    rcases acc with ⟨a, b, c⟩
    cases c <;> rfl
  | cons hd tl ih =>
    rcases acc with ⟨a, b, c⟩
    simp only [List.foldl_cons, List.any_cons, List.findSome?_cons, reminderStep, ruledItem,
      RuleEnv.ruling] at *
    cases hr : checkRuling env.regexMatch (env.rules hd.category) (env.resolve hd.category hd.id) with
    | none =>
      rw [ih]
      simp [hr]
    | some r =>
      rw [ih]
      simp only [hr, Option.isSome_some, Bool.true_and]
      cases c <;> simp [Bool.or_assoc]

/-- C1: in a multi-item selection, if some ruled item has an explicit icon or
color and another ruled item has neither, the reminder reports "overrule",
not "override"; "override" is reported only when every ruled item in the
selection carries an explicit icon or color. -/
theorem updateOverruleReminder_mixed (env : RuleEnv) (items : List Item)
    (hlen : 1 < items.length) :
    ((∃ a ∈ items, ruledItem env a = true ∧ a.explicitValues = true) →
      (∃ b ∈ items, ruledItem env b = true ∧ b.explicitValues = false) →
      ∃ r, updateOverruleReminder env items = .overrule r)
    ∧ (∀ r, updateOverruleReminder env items = .override r →
        ∀ i ∈ items, ruledItem env i = true → i.explicitValues = true) := by
  have hgt : items.length > 1 := hlen
  have hrw : updateOverruleReminder env items =
      (match items.findSome? (fun i => env.ruling i.category i.id) with
       | none => Reminder.silent
       | some rule =>
         if items.any (fun i => ruledItem env i && i.explicitValues)
             && !(items.any (fun i => ruledItem env i && !i.explicitValues)) then
           Reminder.override rule
         else Reminder.overrule rule) := by
    simp only [updateOverruleReminder, if_pos hgt, reminderScan_spec, Bool.false_or]
  rw [hrw]
  constructor
  · rintro ⟨a, ha, hra, hea⟩ ⟨b, hb, hrb, heb⟩
    have horr : items.any (fun i => ruledItem env i && !i.explicitValues) = true :=
      List.any_eq_true.mpr ⟨b, hb, by simp [hrb, heb]⟩
    have hfs : ∃ r, items.findSome? (fun i => env.ruling i.category i.id) = some r := by
      cases hx : items.findSome? (fun i => env.ruling i.category i.id) with
      | some r => exact ⟨r, rfl⟩
      | none =>
        rw [List.findSome?_eq_none_iff] at hx
        have hbn := hx b hb
        rw [ruledItem, hbn] at hrb
        simp at hrb
    obtain ⟨r, hr⟩ := hfs
    refine ⟨r, ?_⟩
    rw [hr]
    simp [horr]
  · intro r hr i hi hri
    by_contra hne
    have hexp : i.explicitValues = false := by
      cases h : i.explicitValues
      · rfl
      · exact absurd h hne
    have horr : items.any (fun j => ruledItem env j && !j.explicitValues) = true :=
      List.any_eq_true.mpr ⟨i, hi, by simp [hri, hexp]⟩
    cases hx : items.findSome? (fun i => env.ruling i.category i.id) with
    | none =>
      rw [hx] at hr
      simp at hr
    | some r0 =>
      rw [hx] at hr
      simp [horr] at hr

/-- Concrete instance of C1: selecting `note.md` once with an explicit icon
and once without, both matched by `ruleFolder`, yields the overrule wording. -/
theorem updateOverruleReminder_mixed_witness :
    ∃ r, updateOverruleReminder envTest [itemA, itemB] = .overrule r := by
  exact (updateOverruleReminder_mixed envTest [itemA, itemB] (by decide)).1
    ⟨itemA, by decide, by decide, by decide⟩
    ⟨itemB, by decide, by decide, by decide⟩

/- ## Claim C5: single-item reminder always names the matching rule -/

/-- C5: for a single selected item, the picker displays a reminder naming the
rule `checkRuling` reports whenever there is one — in the "override" wording
exactly when the item has an explicit icon or color, in the "overrule"
wording when it has neither — and stays silent when `checkRuling` is null. -/
theorem updateOverruleReminder_single (env : RuleEnv) (item : Item) :
    (env.ruling item.category item.id = none →
      updateOverruleReminder env [item] = .silent)
    ∧ (∀ r, env.ruling item.category item.id = some r →
        updateOverruleReminder env [item] =
          (if item.explicitValues then .override r else .overrule r)) := by
  constructor
  · intro h
    simp [updateOverruleReminder, h]
  · intro r h
    simp [updateOverruleReminder, h]

/-- Concrete instance of C5: `note.md` without explicit values gets the
overrule wording naming `ruleFolder`; with an explicit icon it gets the
override wording. -/
theorem updateOverruleReminder_single_witness :
    updateOverruleReminder envTest [itemB] = .overrule ruleFolder
    ∧ updateOverruleReminder envTest [itemA] = .override ruleFolder := by
  constructor
  · have h := (updateOverruleReminder_single envTest itemB).2 ruleFolder (by decide)
    rw [h]
    decide
  · have h := (updateOverruleReminder_single envTest itemA).2 ruleFolder (by decide)
    rw [h]
    decide

/- ## Claim C7: the rule-editor callback refreshes iff the store changed -/

/-- A map that fixes every element of a list leaves it unchanged. -/
theorem map_eq_self_of {α : Type} (l : List α) (f : α → α) (h : ∀ a ∈ l, f a = a) :
    l.map f = l := by
  rw [List.map_congr_left h]
  simp

/-- A map that moves some element of a list changes it. -/
theorem map_ne_self_of {α : Type} (l : List α) (f : α → α) (a : α) (ha : a ∈ l)
    (hfa : f a ≠ a) : l.map f ≠ l := by
  induction l with
  | nil => cases ha
  | cons hd tl ih =>
    intro heq
    simp only [List.map_cons, List.cons.injEq] at heq
    rcases List.mem_cons.mp ha with rfl | hmem
    · exact hfa heq.1
    · exact ih hmem heq.2

/-- The term `deleteRule` reports true exactly when the stored list changed. -/
theorem deleteRule_changed (rules : List Rule) (rid : String) :
    (deleteRule rules rid).2 = true ↔ (deleteRule rules rid).1 ≠ rules := by
  simp only [deleteRule]
  constructor
  · intro hany heq
    obtain ⟨r, hr, hid⟩ := List.any_eq_true.mp hany
    have hid2 : r.id = rid := of_decide_eq_true hid
    rw [List.filter_eq_self] at heq
    have := heq r hr
    simp [hid2] at this
  · intro hne
    cases hany : rules.any (fun r => r.id = rid) with
    | true => rfl
    | false =>
      exfalso
      apply hne
      rw [List.filter_eq_self]
      intro a ha
      have := (List.any_eq_false.mp hany) a ha
      simpa using this

/-- The term `saveRule` reports true exactly when the stored list changed (rule ids
being unique within a category, per the spec's data-model invariant). -/
theorem saveRule_changed (rules : List Rule) (nr : Rule)
    (hids : (rules.map Rule.id).Nodup) :
    (saveRule rules nr).2 = true ↔ (saveRule rules nr).1 ≠ rules := by
  simp only [saveRule]
  cases hf : rules.find? (fun r => r.id = nr.id) with
  | none =>
    simp only []
    constructor
    · intro _ heq
      have hlen := congrArg List.length heq
      simp at hlen
    · intro _
      trivial
  | some r0 =>
    have hr0mem : r0 ∈ rules := List.mem_of_find?_eq_some hf
    have hr0id : r0.id = nr.id := by
      have h1 := List.find?_some hf
      simpa using h1
    by_cases he : r0 = nr
    · subst he
      simp only [decide_not]
      constructor
      · intro hd
        simp at hd
      · intro hne
        exfalso
        apply hne
        apply map_eq_self_of
        intro a ha
        by_cases hid : a.id = r0.id
        · have haeq : a = r0 := List.inj_on_of_nodup_map hids ha hr0mem (by rw [hid])
          simp [hid, haeq]
        · simp [hid]
    · constructor
      · intro _
        apply map_ne_self_of rules _ r0 hr0mem
        simp only [hr0id, if_pos rfl]
        exact fun hx => he hx.symm
      · intro _
        simp [he]

/-- C7: after the rule editor invoked from the reminder closes, the picker
refreshes the page's dependent managers exactly when the `saveRule` /
`deleteRule` call it made returned true, which in turn holds exactly when the
stored rule list changed; no refresh happens on a no-change report. -/
theorem onRuleEditorClose_refresh (rules : List Rule) (rule : Rule) (newRule : Option Rule)
    (hids : (rules.map Rule.id).Nodup) :
    ((onRuleEditorClose rules rule newRule).2 =
      (match newRule with
       | some nr => (saveRule rules nr).2
       | none => (deleteRule rules rule.id).2))
    ∧ ((onRuleEditorClose rules rule newRule).2 = true ↔
        (onRuleEditorClose rules rule newRule).1 ≠ rules) := by
  constructor
  · cases newRule <;> rfl
  · cases newRule with
    | none => exact deleteRule_changed rules rule.id
    | some nr => exact saveRule_changed rules nr hids

/-- Concrete instance of C7: deleting the displayed rule from a store that
contains it reports a change (so the managers refresh), and re-saving it
unchanged reports none (so they do not). -/
theorem onRuleEditorClose_refresh_witness :
    ((onRuleEditorClose [ruleFolder] ruleFolder none).2 = true ↔
      (onRuleEditorClose [ruleFolder] ruleFolder none).1 ≠ [ruleFolder])
    ∧ (onRuleEditorClose [ruleFolder] ruleFolder (some ruleFolder)).2 = false := by
  constructor
  · exact (onRuleEditorClose_refresh [ruleFolder] ruleFolder none (by decide)).2
  · have h := (onRuleEditorClose_refresh [ruleFolder] ruleFolder (some ruleFolder)
      (by decide)).1
    rw [h]
    decide

/- ## Claim C8: the two installPack selection predicates -/

/-- The coolicons registry entry. -/
def cooliconsMeta : IconPackMeta :=
  { id := "coolicons", name := "coolicons", packPrefix := "ci-", version := "4.1",
    downloadUrl := "https://github.com/krystonschwarze/coolicons/releases/download/v4.1/coolicons.v4.1.zip",
    path := "cooliocns SVG", count := 440, recursive := true }

/-- The Font Awesome Solid registry entry. -/
def fasMeta : IconPackMeta :=
  { id := "font-awesome-solid", name := "Font Awesome Solid", packPrefix := "fas-",
    version := "6.7.2",
    downloadUrl := "https://github.com/FortAwesome/Font-Awesome/archive/refs/tags/6.7.2.zip",
    path := "Font-Awesome-6.7.2/svgs/solid", count := 1400 }

/-- C8 counterexample: for the coolicons pack — `recursive` in the registry
but absent from part_001's hard-coded id list — the two `installPack`
implementations disagree on any SVG in a subdirectory of the pack path. -/
theorem installSelects_counterexample :
    cooliconsMeta ∈ ICON_PACK_REGISTRY
    ∧ cooliconsMeta.recursive = true
    ∧ installSelects cooliconsMeta "cooliocns SVG/sub/icon.svg" = true
    ∧ installSelectsLegacy cooliconsMeta "cooliocns SVG/sub/icon.svg" = false := by
  refine ⟨by decide, by decide, by decide, by decide⟩

/-- The two predicates agree whenever the registry's `recursive` flag
coincides with membership in part_001's hard-coded id list. -/
theorem installSelects_agree_of_flag (meta : IconPackMeta)
    (hf : meta.recursive = (meta.id = "remix-icons" || meta.id = "boxicons")) (p : String) :
    installSelects meta p = installSelectsLegacy meta p := by
  unfold installSelects installSelectsLegacy
  rw [hf]

/-- C8 amended: for every pack of `ICON_PACK_REGISTRY` except `coolicons`,
the two `installPack` implementations select exactly the same file paths
(for `coolicons` they differ, per the counterexample). -/
theorem installSelects_equiv_except_coolicons (meta : IconPackMeta)
    (hmem : meta ∈ ICON_PACK_REGISTRY) (hne : meta.id ≠ "coolicons") (filePath : String) :
    installSelects meta filePath = installSelectsLegacy meta filePath := by
  apply installSelects_agree_of_flag
  simp only [ICON_PACK_REGISTRY, List.mem_cons, List.not_mem_nil, or_false] at hmem
  rcases hmem with rfl | rfl | rfl | rfl | rfl | rfl | rfl | rfl | rfl | rfl
  · decide
  · decide
  · decide
  · decide
  · decide
  · decide
  · decide
  · decide
  · decide
  · exact absurd (by decide) hne

/-- Concrete instance of the amended C8: a non-coolicons pack selects the
same files under both implementations. -/
theorem installSelects_equiv_witness :
    installSelects fasMeta "Font-Awesome-6.7.2/svgs/solid/star.svg"
      = installSelectsLegacy fasMeta "Font-Awesome-6.7.2/svgs/solid/star.svg" :=
  installSelects_equiv_except_coolicons fasMeta (by decide) (by decide)
    "Font-Awesome-6.7.2/svgs/solid/star.svg"


/- ## Helper lemmas about the element-state operations -/

/-- Filtering one class name out of a list leaves membership of any other
name unchanged. -/
theorem contains_filter_ne (l : List String) (c d : String) (h : c ≠ d) :
    ((l.filter (fun x => x ≠ c)).contains d) = l.contains d := by
  induction l with
  | nil => rfl
  | cons hd tl ih =>
    by_cases hdc : hd = c
    · subst hdc
      rw [List.filter_cons, if_neg (by simp), List.contains_cons,
        show (d == hd) = false from beq_eq_false_iff_ne.mpr (Ne.symm h), Bool.false_or]
      exact ih
    · rw [List.filter_cons, if_pos (by simp [hdc]), List.contains_cons, List.contains_cons, ih]

/-- The term `addClass` with one class name leaves membership of any other unchanged. -/
theorem addClass_contains_ne (el : ElemState) (c d : String) (h : c ≠ d) :
    ((addClass el c).classes.contains d) = el.classes.contains d := by
  rw [addClass]
  split
  · rfl
  · show ((c :: el.classes).contains d) = el.classes.contains d
    rw [List.contains_cons,
      show (d == c) = false from beq_eq_false_iff_ne.mpr (Ne.symm h), Bool.false_or]

/-- The term `removeClass` with one class name leaves membership of any other
unchanged. -/
theorem removeClass_contains_ne (el : ElemState) (c d : String) (h : c ≠ d) :
    ((removeClass el c).classes.contains d) = el.classes.contains d :=
  contains_filter_ne el.classes c d h

/-- Distribute the class-membership observation over a conditional. -/
theorem contains_ite (c : Prop) [Decidable c] (a b : ElemState) (d : String) :
    ((if c then a else b).classes.contains d)
      = if c then a.classes.contains d else b.classes.contains d := by
  split <;> rfl

/-- The term `renderBranch` can only add or remove `iconic-icon`, so membership of
`collapse-icon` is untouched. -/
theorem renderBranch_contains_collapse (cfg : RenderConfig) (item : IconSpec) (el : ElemState) :
    ((renderBranch cfg item el).classes.contains "collapse-icon")
      = el.classes.contains "collapse-icon" := by
  have hne : ("iconic-icon" : String) ≠ "collapse-icon" := by decide
  simp only [renderBranch, contains_ite, removeClass_contains_ne _ _ _ hne]
  split_ifs <;> rfl

/-- The term `svgColorStep` never touches classes, visibility or the dataset. -/
theorem svgColorStep_proj (cfg : RenderConfig) (item : IconSpec) (el : ElemState) :
    (svgColorStep cfg item el).classes = el.classes
    ∧ (svgColorStep cfg item el).hidden = el.hidden
    ∧ (svgColorStep cfg item el).iconicId = el.iconicId
    ∧ (svgColorStep cfg item el).iconicColor = el.iconicColor := by
  rcases el with ⟨cs, hd, ii, ic, ct⟩
  cases ct
  · exact ⟨rfl, rfl, rfl, rfl⟩
  · simp only [svgColorStep]
    split_ifs <;> exact ⟨rfl, rfl, rfl, rfl⟩
  · exact ⟨rfl, rfl, rfl, rfl⟩

/-- The term `datasetStep` writes exactly the dataset entries. -/
theorem datasetStep_proj (cfg : RenderConfig) (item : IconSpec) (el : ElemState) :
    (datasetStep cfg item el).classes = el.classes
    ∧ (datasetStep cfg item el).hidden = el.hidden
    ∧ (datasetStep cfg item el).content = el.content := by
  simp only [datasetStep]
  split_ifs <;> exact ⟨rfl, rfl, rfl⟩

/-- The dataset icon entry after `datasetStep`. -/
theorem datasetStep_iconicId (cfg : RenderConfig) (item : IconSpec) (el : ElemState) :
    (datasetStep cfg item el).iconicId =
      (if optTruthy (effectiveIcon cfg item (el.classes.contains "collapse-icon")) then
        effectiveIcon cfg item (el.classes.contains "collapse-icon")
      else none) := by
  simp only [datasetStep]
  split_ifs <;> rfl

/-- The dataset color entry after `datasetStep`. -/
theorem datasetStep_iconicColor (cfg : RenderConfig) (item : IconSpec) (el : ElemState) :
    (datasetStep cfg item el).iconicColor =
      (if orEmpty item.color ≠ "" then some (orEmpty item.color) else none) := by
  simp only [datasetStep]
  split_ifs <;> rfl

/-- An effective icon, when present, is a non-empty id. -/
theorem effectiveIcon_ne_empty (cfg : RenderConfig) (item : IconSpec) (b : Bool) (s : String)
    (h : effectiveIcon cfg item b = some s) : s ≠ "" := by
  intro he
  subst he
  rw [effectiveIcon] at h
  split_ifs at h with h1 h2 h3 h4
  · rw [h] at h1
    exact absurd h1 (by decide)
  · rw [h] at h3
    rw [Bool.and_eq_true] at h3
    exact absurd h3.2 (by decide)
  · exact absurd (Option.some_inj.mp h) (by decide)
  · rw [h] at h4
    exact absurd h4 (by decide)

/-- When the payload has a truthy explicit icon, that is the effective icon. -/
theorem effectiveIcon_of_icon (cfg : RenderConfig) (item : IconSpec) (b : Bool)
    (h : optTruthy item.icon = true) : effectiveIcon cfg item b = item.icon := by
  simp [effectiveIcon, h]

/-- After `refreshIcon`, the tracked `dataset.iconicId` equals the effective
icon whenever one exists. -/
theorem refreshIcon_iconicId (cfg : RenderConfig) (item : IconSpec) (el : ElemState) (s : String)
    (h : effectiveIcon cfg item (el.classes.contains "collapse-icon") = some s) :
    (refreshIcon cfg item el).iconicId = some s := by
  have hs := effectiveIcon_ne_empty cfg item _ s h
  rw [refreshIcon]
  split_ifs with he
  · rw [earlyExit, h] at he
    simp only [strictEqOpt, Bool.and_eq_true, decide_eq_true_eq] at he
    obtain ⟨he1, -⟩ := he
    cases hii : el.iconicId with
    | none =>
      rw [hii] at he1
      simp [orEmpty] at he1
      exact absurd he1 hs
    | some t =>
      rw [hii] at he1
      simp only [orEmpty, Option.getD_some] at he1
      rw [he1]
  · show (datasetStep cfg item
      (svgColorStep cfg item (renderBranch cfg item (addClass el "iconic-icon")))).iconicId
        = some s
    have hcc : ((svgColorStep cfg item
        (renderBranch cfg item (addClass el "iconic-icon"))).classes.contains "collapse-icon")
          = el.classes.contains "collapse-icon" := by
      rw [(svgColorStep_proj cfg item _).1, renderBranch_contains_collapse,
        addClass_contains_ne _ _ _ (by decide)]
    rw [datasetStep_iconicId, hcc, h]
    have ht : optTruthy (some s) = true := by
      simp only [optTruthy]
      cases hse : s.isEmpty
      · rfl
      · exact absurd ((String.isEmpty_iff s).mp hse) hs
    simp [ht]

/- ## Claim C2: rule icons shadow explicit item icons in the rendering path -/

/-- C2 counterexample: `note.md` carries the explicit icon `star`, rule
`ruleFolder` matches it and specifies `folder`; `checkRuling` returns the
rule, and the suggestion rendering path renders `folder` — the rule's icon —
not the item's explicit `star`. -/
theorem refreshFileIcon_counterexample :
    envTest.ruling "file" "note.md" = some ruleFolder
    ∧ itemA.icon = some "star"
    ∧ ruleFolder.icon = some "folder"
    ∧ (refreshFileIcon cfgTest envTest itemA el0).content = .svgIcon "folder" none
    ∧ (refreshFileIcon cfgTest envTest itemA el0).iconicId = some "folder"
    ∧ ¬(refreshFileIcon cfgTest envTest itemA el0).content = .svgIcon "star" none := by
  refine ⟨by decide, by decide, by decide, by decide, by decide, by decide⟩

/-- C2 amended: when `checkRuling` reports a rule for a file, the suggestion
rendering path hands the rule — not the item — to `refreshIcon`, so the
rule's icon is what gets rendered and tracked, shadowing any explicit item
icon (`checkRuling` itself still returns the rule); the item's own explicit
icon is rendered exactly when no rule matches. -/
theorem refreshFileIcon_rule_shadows (cfg : RenderConfig) (env : RuleEnv) (file : Item)
    (el : ElemState) :
    (∀ r, env.ruling "file" file.id = some r →
      suggestionRenderSource env file = r.toIconSpec
      ∧ (optTruthy r.icon = true →
          (refreshFileIcon cfg env file el).iconicId = r.icon))
    ∧ (env.ruling "file" file.id = none →
        suggestionRenderSource env file = file.toIconSpec
        ∧ (optTruthy file.icon = true →
            (refreshFileIcon cfg env file el).iconicId = file.icon)) := by
  constructor
  · intro r hr
    have hsrc : suggestionRenderSource env file = r.toIconSpec := by
      rw [suggestionRenderSource, hr]
    refine ⟨hsrc, fun hico => ?_⟩
    rw [refreshFileIcon, hsrc]
    cases hi : r.icon with
    | none =>
      rw [hi] at hico
      cases hico
    | some s =>
      apply refreshIcon_iconicId
      rw [effectiveIcon_of_icon _ _ _ (by rw [Rule.toIconSpec]; rw [hi] at hico ⊢; exact hico)]
      rw [Rule.toIconSpec, hi]
  · intro hr
    have hsrc : suggestionRenderSource env file = file.toIconSpec := by
      rw [suggestionRenderSource, hr]
    refine ⟨hsrc, fun hico => ?_⟩
    rw [refreshFileIcon, hsrc]
    cases hi : file.icon with
    | none =>
      rw [hi] at hico
      cases hico
    | some s =>
      apply refreshIcon_iconicId
      rw [effectiveIcon_of_icon _ _ _ (by rw [Item.toIconSpec]; rw [hi] at hico ⊢; exact hico)]
      rw [Item.toIconSpec, hi]

/-- Concrete instance of the amended C2 at the §8 scenario. -/
theorem refreshFileIcon_rule_shadows_witness :
    suggestionRenderSource envTest itemA = ruleFolder.toIconSpec
    ∧ (refreshFileIcon cfgTest envTest itemA el0).iconicId = ruleFolder.icon := by
  have h := (refreshFileIcon_rule_shadows cfgTest envTest itemA el0).1 ruleFolder (by decide)
  exact ⟨h.1, h.2 (by decide)⟩

/-- A falsy nullable string coalesces to the empty string. -/
theorem orEmpty_of_falsy (o : Option String) (h : optTruthy o = false) : orEmpty o = "" := by
  cases o with
  | none => rfl
  | some s =>
    simp only [optTruthy] at h
    rw [orEmpty, Option.getD_some]
    cases hb : s.isEmpty with
    | false =>
      rw [hb] at h
      exact absurd h (by decide)
    | true => exact (String.isEmpty_iff s).mp hb

/-- A truthy nullable string is a non-empty one. -/
theorem optTruthy_some_ne (s : String) (h : optTruthy (some s) = true) : s ≠ "" := by
  simp only [optTruthy] at h
  intro he
  subst he
  exact absurd h (by decide)

/-- The term `addClass` only touches the class list. -/
theorem addClass_proj (el : ElemState) (c : String) :
    (addClass el c).hidden = el.hidden
    ∧ (addClass el c).iconicId = el.iconicId
    ∧ (addClass el c).iconicColor = el.iconicColor
    ∧ (addClass el c).content = el.content := by
  rw [addClass]
  split <;> exact ⟨rfl, rfl, rfl, rfl⟩

/-- The term `renderBranch` in the plain default-icon case (no explicit icon, not a
collapse chevron, a truthy default): install the default SVG and show it. -/
theorem renderBranch_default (cfg : RenderConfig) (item : IconSpec) (el : ElemState)
    (hicon : optTruthy item.icon = false)
    (hcoll : el.classes.contains "collapse-icon" = false)
    (hdef : optTruthy item.iconDefault = true) :
    renderBranch cfg item el =
      { el with content := setIconContent (orEmpty item.iconDefault), hidden := false } := by
  rw [renderBranch, if_neg (by simp [hicon]), if_neg (by rw [hcoll]; simp), if_pos hdef]

/-- The term `renderBranch` in the no-icon case (nothing explicit, not a collapse
chevron, no default): drop the `iconic-icon` class and hide the element. -/
theorem renderBranch_hide (cfg : RenderConfig) (item : IconSpec) (el : ElemState)
    (hicon : optTruthy item.icon = false)
    (hcoll : el.classes.contains "collapse-icon" = false)
    (hdef : optTruthy item.iconDefault = false) :
    renderBranch cfg item el = { removeClass el "iconic-icon" with hidden := true } := by
  rw [renderBranch, if_neg (by simp [hicon]), if_neg (by rw [hcoll]; simp), if_neg (by simp [hdef])]

/-- The term `svgColorStep` on an element holding an SVG icon: write or clear the
inline color. -/
theorem svgColorStep_eq (cfg : RenderConfig) (item : IconSpec) (el : ElemState) (n : String)
    (c : Option String) (h : el.content = .svgIcon n c) :
    svgColorStep cfg item el =
      { el with content := (ElemContent.svgIcon n
          (if optTruthy item.color = true then some (cfg.toRgb (orEmpty item.color)) else none)) } := by
  rw [svgColorStep, h]
  split_ifs <;> rfl

/-- The term `refreshIcon` outside the early exit is the four-step pipeline. -/
theorem refreshIcon_of_not_early (cfg : RenderConfig) (item : IconSpec) (el : ElemState)
    (h : earlyExit cfg item el = false) :
    refreshIcon cfg item el =
      datasetStep cfg item
        (svgColorStep cfg item (renderBranch cfg item (addClass el "iconic-icon"))) := by
  rw [refreshIcon, if_neg (by simp [h])]

/- ## Claim C6: rendering items with no explicit icon and no matching rule -/

/-- C6 counterexample: (a) an item with no explicit icon but an explicit
color, no rule matching, renders its default icon *with* that color applied,
not colorless; (b) on a collapse chevron (with `showAllFolderIcons` off) the
default icon is not displayed at all — the folder arrow is. -/
theorem refreshIcon_default_counterexample :
    (envEmpty.ruling "file" itemRed.id = none
      ∧ itemRed.icon = none
      ∧ (refreshFileIcon cfgTest envEmpty itemRed el0).content
          = .svgIcon "lucide-file" (some "rgb-red")
      ∧ ¬(refreshFileIcon cfgTest envEmpty itemRed el0).content = .svgIcon "lucide-file" none)
    ∧ (specDefault.iconDefault = some "lucide-file"
      ∧ (refreshIcon cfgTest specDefault elColl).content = .svgIcon "right-triangle" none) := by
  exact ⟨⟨by decide, by decide, by decide, by decide⟩, ⟨by decide, by decide⟩⟩

/-- C6 amended: for a payload with no explicit icon *and no explicit color*,
rendered into a non-collapse element not yet tracked by the manager: when a
truthy default icon exists it is displayed with no color applied (any
previously set inline color is gone, the fresh SVG being colorless and left
so); when none exists the element is hidden, its tracking data cleared and
the inline color of a previously rendered SVG removed. -/
theorem refreshIcon_default_rendering (cfg : RenderConfig) (item : IconSpec) (el : ElemState)
    (hicon : optTruthy item.icon = false)
    (hcolor : optTruthy item.color = false)
    (hcoll : el.classes.contains "collapse-icon" = false)
    (hfresh : el.iconicId = none) :
    (∀ d, item.iconDefault = some d → optTruthy item.iconDefault = true →
      (refreshIcon cfg item el).content = .svgIcon d none
      ∧ (refreshIcon cfg item el).hidden = false
      ∧ (refreshIcon cfg item el).iconicId = some d
      ∧ (refreshIcon cfg item el).iconicColor = none)
    ∧ (optTruthy item.iconDefault = false →
        (refreshIcon cfg item el).hidden = true
        ∧ (refreshIcon cfg item el).iconicId = none
        ∧ (refreshIcon cfg item el).iconicColor = none
        ∧ ∀ n c, el.content = .svgIcon n c →
            (refreshIcon cfg item el).content = .svgIcon n none) := by
  have hoc : orEmpty item.color = "" := orEmpty_of_falsy _ hcolor
  constructor
  · intro d hd hdef
    have heff : effectiveIcon cfg item (el.classes.contains "collapse-icon") = some d := by
      rw [effectiveIcon, if_neg (by simp [hicon]), if_neg (by rw [hcoll]; simp),
        if_pos hdef, hd]
    have hdne : d ≠ "" := by
      rw [hd] at hdef
      exact optTruthy_some_ne d hdef
    have hearly : earlyExit cfg item el = false := by
      rw [earlyExit, heff, hfresh]
      simp only [strictEqOpt, orEmpty, Option.getD_none, Bool.and_eq_false_iff]
      left
      simp [hdne]
    have hcoll2 : ((addClass el "iconic-icon").classes.contains "collapse-icon") = false := by
      rw [addClass_contains_ne _ _ _ (by decide), hcoll]
    have hb := renderBranch_default cfg item (addClass el "iconic-icon") hicon hcoll2 hdef
    have hsvg := svgColorStep_eq cfg item
      (renderBranch cfg item (addClass el "iconic-icon")) (orEmpty item.iconDefault) none
      (by rw [hb]; rfl)
    have hdg : orEmpty item.iconDefault = d := by rw [hd]; rfl
    rw [refreshIcon_of_not_early cfg item el hearly]
    refine ⟨?_, ?_, ?_, ?_⟩
    · rw [(datasetStep_proj cfg item _).2.2, hsvg]
      rw [if_neg (by simp [hcolor]), hdg]
    · rw [(datasetStep_proj cfg item _).2.1, hsvg, hb]
    · rw [← refreshIcon_of_not_early cfg item el hearly]
      exact refreshIcon_iconicId cfg item el d heff
    · rw [datasetStep_iconicColor, if_neg (by simp [hoc])]
  · intro hdef
    have heff : effectiveIcon cfg item (el.classes.contains "collapse-icon") = none := by
      rw [effectiveIcon, if_neg (by simp [hicon]), if_neg (by rw [hcoll]; simp),
        if_neg (by simp [hdef])]
    have hearly : earlyExit cfg item el = false := by
      rw [earlyExit, heff]
      rfl
    have hcoll2 : ((addClass el "iconic-icon").classes.contains "collapse-icon") = false := by
      rw [addClass_contains_ne _ _ _ (by decide), hcoll]
    have hb := renderBranch_hide cfg item (addClass el "iconic-icon") hicon hcoll2 hdef
    have hcoll3 : ((renderBranch cfg item (addClass el "iconic-icon")).classes.contains
        "collapse-icon") = false := by
      rw [renderBranch_contains_collapse, hcoll2]
    rw [refreshIcon_of_not_early cfg item el hearly]
    refine ⟨?_, ?_, ?_, ?_⟩
    · rw [(datasetStep_proj cfg item _).2.1, (svgColorStep_proj cfg item _).2.1, hb]
    · have heff2 : effectiveIcon cfg item false = none := by
        rw [hcoll] at heff
        exact heff
      rw [datasetStep_iconicId, (svgColorStep_proj cfg item _).1, hcoll3, heff2]
      rfl
    · rw [datasetStep_iconicColor, if_neg (by simp [hoc])]
    · intro n c hnc
      have hbc : (renderBranch cfg item (addClass el "iconic-icon")).content = .svgIcon n c := by
        rw [hb]
        show (removeClass (addClass el "iconic-icon") "iconic-icon").content = _
        rw [removeClass]
        show (addClass el "iconic-icon").content = _
        rw [(addClass_proj el "iconic-icon").2.2.2, hnc]
      rw [(datasetStep_proj cfg item _).2.2,
        svgColorStep_eq cfg item _ n c hbc, if_neg (by simp [hcolor])]

/-- Concrete instance of the amended C6: a bare file item on a fresh element
renders `lucide-file` colorless; one without a default gets hidden. -/
theorem refreshIcon_default_rendering_witness :
    ((refreshIcon cfgTest specDefault el0).content = .svgIcon "lucide-file" none
      ∧ (refreshIcon cfgTest specDefault el0).hidden = false
      ∧ (refreshIcon cfgTest specDefault el0).iconicId = some "lucide-file"
      ∧ (refreshIcon cfgTest specDefault el0).iconicColor = none)
    ∧ (refreshIcon cfgTest specBare el0).hidden = true := by
  constructor
  · exact (refreshIcon_default_rendering cfgTest specDefault el0
      (by decide) (by decide) (by decide) (by decide)).1 "lucide-file" (by decide) (by decide)
  · exact ((refreshIcon_default_rendering cfgTest specBare el0
      (by decide) (by decide) (by decide) (by decide)).2 (by decide)).1

/- ## Claim C9: refreshIcon idempotence and the early exit -/

/-- Two element states with equal fields are equal. -/
theorem ElemState.extEq (a b : ElemState) (h1 : a.classes = b.classes)
    (h2 : a.hidden = b.hidden) (h3 : a.iconicId = b.iconicId)
    (h4 : a.iconicColor = b.iconicColor) (h5 : a.content = b.content) : a = b := by
  rcases a with ⟨a1, a2, a3, a4, a5⟩
  rcases b with ⟨b1, b2, b3, b4, b5⟩
  simp only [ElemState.mk.injEq]
  exact ⟨h1, h2, h3, h4, h5⟩

/-- Filtering a class name out removes it. -/
theorem contains_filter_self (l : List String) (c : String) :
    ((l.filter (fun x => x ≠ c)).contains c) = false := by
  rw [Bool.eq_false_iff]
  intro hc
  have hm : c ∈ l.filter (fun x => x ≠ c) := List.elem_iff.mp hc
  have := List.of_mem_filter hm
  simp at this

/-- Filtering a class name out twice is filtering it once. -/
theorem filter_ne_idem (l : List String) (c : String) :
    (l.filter (fun x => x ≠ c)).filter (fun x => x ≠ c) = l.filter (fun x => x ≠ c) := by
  rw [List.filter_eq_self]
  intro a ha
  exact @List.of_mem_filter String (fun x => decide (x ≠ c)) a l ha

/-- The inline-color normalization `svgColorStep` performs on content. -/
def recolorSvg (cfg : RenderConfig) (item : IconSpec) (ct : ElemContent) : ElemContent :=
  match ct with
  | .svgIcon n _ =>
    .svgIcon n (if optTruthy item.color then some (cfg.toRgb (orEmpty item.color)) else none)
  | other => other

/-- The term `svgColorStep` only rewrites the content, through `recolorSvg`. -/
theorem svgColorStep_eq_recolor (cfg : RenderConfig) (item : IconSpec) (el : ElemState) :
    svgColorStep cfg item el = { el with content := recolorSvg cfg item el.content } := by
  rcases el with ⟨cs, hd, ii, ic, ct⟩
  cases ct
  · rfl
  · simp only [svgColorStep, recolorSvg]
    split_ifs <;> rfl
  · rfl

/-- The term `recolorSvg` is idempotent. -/
theorem recolorSvg_idem (cfg : RenderConfig) (item : IconSpec) (ct : ElemContent) :
    recolorSvg cfg item (recolorSvg cfg item ct) = recolorSvg cfg item ct := by
  cases ct
  · rfl
  · simp only [recolorSvg]
  · rfl

/-- The term `datasetStep` as a single record update. -/
theorem datasetStep_eq (cfg : RenderConfig) (item : IconSpec) (el : ElemState) :
    datasetStep cfg item el =
      { el with
        iconicId := (if optTruthy (effectiveIcon cfg item (el.classes.contains "collapse-icon"))
          then effectiveIcon cfg item (el.classes.contains "collapse-icon") else none),
        iconicColor := (if orEmpty item.color ≠ "" then some (orEmpty item.color) else none) } := by
  rw [datasetStep]
  split_ifs <;> rfl

/-- The term `refreshIcon` never changes whether the element is a collapse chevron. -/
theorem refreshIcon_contains_collapse (cfg : RenderConfig) (item : IconSpec) (el : ElemState) :
    ((refreshIcon cfg item el).classes.contains "collapse-icon")
      = el.classes.contains "collapse-icon" := by
  rw [refreshIcon]
  split_ifs with he
  · rfl
  · show ((datasetStep cfg item (svgColorStep cfg item
      (renderBranch cfg item (addClass el "iconic-icon")))).classes.contains "collapse-icon") = _
    rw [(datasetStep_proj cfg item _).1, (svgColorStep_proj cfg item _).1,
      renderBranch_contains_collapse, addClass_contains_ne _ _ _ (by decide)]

/-- The tracked color always coalesces to the rendered effective color. -/
theorem refreshIcon_orEmpty_color (cfg : RenderConfig) (item : IconSpec) (el : ElemState) :
    orEmpty (refreshIcon cfg item el).iconicColor = orEmpty item.color := by
  rw [refreshIcon]
  split_ifs with he
  · rw [earlyExit, Bool.and_eq_true] at he
    exact (of_decide_eq_true he.2).symm
  · show orEmpty (datasetStep cfg item (svgColorStep cfg item
      (renderBranch cfg item (addClass el "iconic-icon")))).iconicColor = _
    rw [datasetStep_iconicColor]
    split_ifs with hc
    · rfl
    · rw [not_not] at hc
      rw [hc]
      rfl

/-- A null effective icon forces: no explicit icon, not a collapse chevron,
no default icon. -/
theorem effectiveIcon_none_flags (cfg : RenderConfig) (item : IconSpec) (b : Bool)
    (h : effectiveIcon cfg item b = none) :
    optTruthy item.icon = false ∧ b = false ∧ optTruthy item.iconDefault = false := by
  rw [effectiveIcon] at h
  by_cases h1 : optTruthy item.icon = true
  · rw [if_pos h1] at h
    rw [h] at h1
    exact absurd h1 (by decide)
  · rw [if_neg h1] at h
    by_cases h2 : b = true
    · exfalso
      rw [if_pos h2] at h
      by_cases h3 : (cfg.showAllFolderIcons && optTruthy item.iconDefault) = true
      · rw [if_pos h3] at h
        rw [Bool.and_eq_true] at h3
        rw [h] at h3
        exact absurd h3.2 (by decide)
      · rw [if_neg h3] at h
        cases h
    · rw [if_neg h2] at h
      by_cases h4 : optTruthy item.iconDefault = true
      · rw [if_pos h4] at h
        rw [h] at h4
        exact absurd h4 (by decide)
      · exact ⟨by simpa using h1, by simpa using h2, by simpa using h4⟩

/-- The term `refreshIcon` at a null effective icon, written out as a record. -/
theorem refreshIcon_none_eq (cfg : RenderConfig) (item : IconSpec) (el : ElemState)
    (h : effectiveIcon cfg item (el.classes.contains "collapse-icon") = none) :
    refreshIcon cfg item el =
      { classes := (addClass el "iconic-icon").classes.filter (fun x => x ≠ "iconic-icon"),
        hidden := true,
        iconicId := none,
        iconicColor := (if orEmpty item.color ≠ "" then some (orEmpty item.color) else none),
        content := recolorSvg cfg item el.content } := by
  obtain ⟨hicon, hcoll, hdef⟩ := effectiveIcon_none_flags cfg item _ h
  have hearly : earlyExit cfg item el = false := by
    rw [earlyExit, h]
    rfl
  have hcoll2 : ((addClass el "iconic-icon").classes.contains "collapse-icon") = false := by
    rw [addClass_contains_ne _ _ _ (by decide), hcoll]
  have hb := renderBranch_hide cfg item (addClass el "iconic-icon") hicon hcoll2 hdef
  have hbct : (renderBranch cfg item (addClass el "iconic-icon")).content = el.content := by
    rw [hb]
    show (removeClass (addClass el "iconic-icon") "iconic-icon").content = el.content
    show (addClass el "iconic-icon").content = el.content
    exact (addClass_proj el "iconic-icon").2.2.2
  apply ElemState.extEq
  · rw [refreshIcon_of_not_early cfg item el hearly, (datasetStep_proj cfg item _).1,
      (svgColorStep_proj cfg item _).1, hb]
    rfl
  · rw [refreshIcon_of_not_early cfg item el hearly, (datasetStep_proj cfg item _).2.1,
      (svgColorStep_proj cfg item _).2.1, hb]
  · rw [refreshIcon_of_not_early cfg item el hearly, datasetStep_iconicId,
      (svgColorStep_proj cfg item _).1, renderBranch_contains_collapse, hcoll2]
    have h2 : effectiveIcon cfg item false = none := by
      rw [hcoll] at h
      exact h
    rw [h2]
    rfl
  · rw [refreshIcon_of_not_early cfg item el hearly, datasetStep_iconicColor]
  · rw [refreshIcon_of_not_early cfg item el hearly, (datasetStep_proj cfg item _).2.2,
      svgColorStep_eq_recolor]
    show recolorSvg cfg item ((renderBranch cfg item (addClass el "iconic-icon")).content)
      = recolorSvg cfg item el.content
    rw [hbct]

/-- When an effective icon exists, the first render leaves the element in a
state the early-exit test recognizes. -/
theorem refreshIcon_early_after (cfg : RenderConfig) (item : IconSpec) (el : ElemState)
    (s : String) (h : effectiveIcon cfg item (el.classes.contains "collapse-icon") = some s) :
    earlyExit cfg item (refreshIcon cfg item el) = true := by
  have hid := refreshIcon_iconicId cfg item el s h
  have hcc := refreshIcon_contains_collapse cfg item el
  have hco := refreshIcon_orEmpty_color cfg item el
  rw [earlyExit, hcc, h, hid, Bool.and_eq_true]
  constructor
  · simp [strictEqOpt, orEmpty]
  · rw [hco]
    simp

/-- C9: the claim split in two. (a) Whenever the computed effective icon is
non-null, one `refreshIcon` call stores it in `dataset.iconicId` and a second
call with the same item takes the early-exit branch. (b) In every case —
including the null effective icon, where the early exit never fires because
`null === prevIcon` is false against the string `prevIcon` — the second call
leaves the element state exactly as the first left it. -/
theorem refreshIcon_idempotent (cfg : RenderConfig) (item : IconSpec) (el : ElemState) :
    (∀ s, effectiveIcon cfg item (el.classes.contains "collapse-icon") = some s →
      (refreshIcon cfg item el).iconicId = some s
      ∧ earlyExit cfg item (refreshIcon cfg item el) = true)
    ∧ refreshIcon cfg item (refreshIcon cfg item el) = refreshIcon cfg item el := by
  constructor
  · intro s hs
    exact ⟨refreshIcon_iconicId cfg item el s hs, refreshIcon_early_after cfg item el s hs⟩
  · cases heff : effectiveIcon cfg item (el.classes.contains "collapse-icon") with
    | some s =>
      have h2 := refreshIcon_early_after cfg item el s heff
      rw [refreshIcon, if_pos h2]
    | none =>
      have h1 := refreshIcon_none_eq cfg item el heff
      have heff2 : effectiveIcon cfg item
          ((refreshIcon cfg item el).classes.contains "collapse-icon") = none := by
        rw [refreshIcon_contains_collapse]
        exact heff
      have h2 := refreshIcon_none_eq cfg item (refreshIcon cfg item el) heff2
      rw [h2]
      apply ElemState.extEq
      · show ((addClass (refreshIcon cfg item el) "iconic-icon").classes.filter
          (fun x => x ≠ "iconic-icon")) = (refreshIcon cfg item el).classes
        have hnc : ((refreshIcon cfg item el).classes.contains "iconic-icon") = false := by
          rw [h1]
          show (((addClass el "iconic-icon").classes.filter
            (fun x => x ≠ "iconic-icon")).contains "iconic-icon") = false
          exact contains_filter_self _ _
        rw [addClass, if_neg (by rw [hnc]; simp)]
        show (("iconic-icon" :: (refreshIcon cfg item el).classes).filter
          (fun x => x ≠ "iconic-icon")) = (refreshIcon cfg item el).classes
        rw [List.filter_cons, if_neg (by simp)]
        conv_lhs => rw [h1]
        conv_rhs => rw [h1]
        exact filter_ne_idem _ _
      · rw [h1]
      · rw [h1]
      · rw [h1]
      · show recolorSvg cfg item (refreshIcon cfg item el).content
          = (refreshIcon cfg item el).content
        conv_lhs => rw [h1]
        conv_rhs => rw [h1]
        show recolorSvg cfg item (recolorSvg cfg item el.content) = recolorSvg cfg item el.content
        exact recolorSvg_idem cfg item el.content

/-- C9 counterexample: for a payload whose effective icon is null, the first
call clears `dataset.iconicId`, and the second call does *not* take the
early-exit branch (`null === ''` is false) — though it still reproduces the
same element state. -/
theorem refreshIcon_early_exit_counterexample :
    effectiveIcon cfgTest specBare false = none
    ∧ (refreshIcon cfgTest specBare el0).iconicId = none
    ∧ earlyExit cfgTest specBare (refreshIcon cfgTest specBare el0) = false
    ∧ refreshIcon cfgTest specBare (refreshIcon cfgTest specBare el0)
        = refreshIcon cfgTest specBare el0 := by
  exact ⟨by decide, by decide, by decide, by decide⟩

/-- Concrete instance of C9 at an item with a truthy icon. -/
theorem refreshIcon_idempotent_witness :
    ((refreshIcon cfgTest itemA.toIconSpec el0).iconicId = some "star"
      ∧ earlyExit cfgTest itemA.toIconSpec (refreshIcon cfgTest itemA.toIconSpec el0) = true)
    ∧ refreshIcon cfgTest itemA.toIconSpec (refreshIcon cfgTest itemA.toIconSpec el0)
        = refreshIcon cfgTest itemA.toIconSpec el0 := by
  have h := refreshIcon_idempotent cfgTest itemA.toIconSpec el0
  exact ⟨h.1 "star" (by decide), h.2⟩

/- ## Claim C10: processPackSvg null conditions and output shape -/

/-- Does the input carry a viewBox attribute (the regex matches)? -/
def hasViewBoxAttr (s : String) : Bool :=
  (viewBoxCapture s.toList).isSome

/-- Are the third and fourth whitespace-separated viewBox entries present,
numeric and non-zero? -/
def viewBoxDimsOk (s : String) : Bool :=
  match viewBoxCapture s.toList with
  | none => false
  | some cap =>
    match entryNum (splitWs cap) 2, entryNum (splitWs cap) 3 with
    | some w, some h => !(w.isZero || h.isZero)
    | _, _ => false

/-- Is there non-empty (post-trim) content between the svg tags? -/
def innerContentOk (s : String) : Bool :=
  match innerCapture s.toList with
  | none => false
  | some inner => !(jsTrim inner).isEmpty

/-- The term `processPackSvg` returns null exactly when the viewBox attribute is
missing, its dimensions are missing/zero/non-numeric, or the inner content
is empty. -/
theorem processPackSvg_none_iff (numPrint : JsRat → String) (s : String) :
    processPackSvg numPrint s = none ↔
      ¬(hasViewBoxAttr s = true ∧ viewBoxDimsOk s = true ∧ innerContentOk s = true) := by
  unfold processPackSvg hasViewBoxAttr viewBoxDimsOk innerContentOk
  cases hvb : viewBoxCapture s.toList with
  | none => simp
  | some cap =>
    cases hw : entryNum (splitWs cap) 2 with
    | none =>
      cases hh : entryNum (splitWs cap) 3 with
      | none =>
        simp only [hw, hh]
        simp
      | some h =>
        simp only [hw, hh]
        simp
    | some w =>
      cases hh : entryNum (splitWs cap) 3 with
      | none =>
        simp only [hw, hh]
        simp
      | some h =>
        simp only [hw, hh, Option.isSome_some]
        by_cases hz : (w.isZero || h.isZero) = true
        · rw [if_pos hz]
          simp [hz]
        · rw [if_neg hz]
          have hz2 : (w.isZero || h.isZero) = false := by
            simp only [Bool.not_eq_true] at hz
            exact hz
          cases hic : innerCapture s.toList with
          | none => simp
          | some inner =>
            simp only []
            by_cases htr : (jsTrim inner).isEmpty = true
            · rw [if_pos htr]
              simp [htr]
            · rw [if_neg htr]
              have htr2 : (jsTrim inner).isEmpty = false := by
                simp only [Bool.not_eq_true] at htr
                exact htr
              by_cases hs100 : (!w.eqv (JsRat.ofNat 100) || !h.eqv (JsRat.ofNat 100)) = true
              · rw [if_pos hs100]
                simp [hz2, htr2]
              · rw [if_neg hs100]
                simp [hz2, htr2]

/-- Every non-null `processPackSvg` result is the trimmed, stroke-normalized
inner content wrapped in the `<g>` element, scaled when the viewBox is not
100 by 100. -/
theorem processPackSvg_some_shape (numPrint : JsRat → String) (s : String) (r : String)
    (hr : processPackSvg numPrint s = some r) :
    ∃ cap inner w h, viewBoxCapture s.toList = some cap
      ∧ entryNum (splitWs cap) 2 = some w ∧ entryNum (splitWs cap) 3 = some h
      ∧ w.isZero = false ∧ h.isZero = false
      ∧ innerCapture s.toList = some inner ∧ (jsTrim inner).isEmpty = false
      ∧ r = (if !w.eqv (JsRat.ofNat 100) || !h.eqv (JsRat.ofNat 100) then
          gScaleWrap (numPrint ((JsRat.ofNat 100).div w)) (numPrint ((JsRat.ofNat 100).div h))
            (String.mk (strokeReplace (jsTrim inner)))
        else gWrap (String.mk (strokeReplace (jsTrim inner)))) := by
  unfold processPackSvg at hr
  cases hvb : viewBoxCapture s.toList with
  | none =>
    rw [hvb] at hr
    exact Option.noConfusion hr
  | some cap =>
    rw [hvb] at hr
    cases hw : entryNum (splitWs cap) 2 with
    | none =>
      cases hh : entryNum (splitWs cap) 3 with
      | none =>
        simp only [hw, hh] at hr
        exact Option.noConfusion hr
      | some h =>
        simp only [hw, hh] at hr
        exact Option.noConfusion hr
    | some w =>
      cases hh : entryNum (splitWs cap) 3 with
      | none =>
        simp only [hw, hh] at hr
        exact Option.noConfusion hr
      | some h =>
        simp only [hw, hh] at hr
        by_cases hz : (w.isZero || h.isZero) = true
        · rw [if_pos hz] at hr
          exact Option.noConfusion hr
        · rw [if_neg hz] at hr
          have hzf : (w.isZero || h.isZero) = false := by
            simp only [Bool.not_eq_true] at hz
            exact hz
          rw [Bool.or_eq_false_iff] at hzf
          cases hic : innerCapture s.toList with
          | none =>
            rw [hic] at hr
            exact Option.noConfusion hr
          | some inner =>
            rw [hic] at hr
            simp only [] at hr
            by_cases htr : (jsTrim inner).isEmpty = true
            · rw [if_pos htr] at hr
              exact Option.noConfusion hr
            · rw [if_neg htr] at hr
              have htr2 : (jsTrim inner).isEmpty = false := by
                simp only [Bool.not_eq_true] at htr
                exact htr
              refine ⟨cap, inner, w, h, rfl, hw, hh, hzf.1, hzf.2, rfl, htr2, ?_⟩
              by_cases hs100 : (!w.eqv (JsRat.ofNat 100) || !h.eqv (JsRat.ofNat 100)) = true
              · rw [if_pos hs100] at hr
                rw [if_pos hs100]
                exact (Option.some_inj.mp hr).symm
              · rw [if_neg hs100] at hr
                rw [if_neg hs100]
                exact (Option.some_inj.mp hr).symm

/-- C10 amended: `processPackSvg` is total by construction; it is null
exactly under the claim's three conditions; and every non-null result is the
inner content — after trimming and after the stroke normalization the claim
omits — wrapped in `<g fill="currentColor">`, with the `scale(100/width,
100/height)` transform exactly when the viewBox value is not 100 by 100. -/
theorem processPackSvg_spec (numPrint : JsRat → String) (s : String) :
    (processPackSvg numPrint s = none ↔
      ¬(hasViewBoxAttr s = true ∧ viewBoxDimsOk s = true ∧ innerContentOk s = true))
    ∧ (∀ r, processPackSvg numPrint s = some r →
        ∃ cap inner w h, viewBoxCapture s.toList = some cap
          ∧ entryNum (splitWs cap) 2 = some w ∧ entryNum (splitWs cap) 3 = some h
          ∧ w.isZero = false ∧ h.isZero = false
          ∧ innerCapture s.toList = some inner ∧ (jsTrim inner).isEmpty = false
          ∧ r = (if !w.eqv (JsRat.ofNat 100) || !h.eqv (JsRat.ofNat 100) then
              gScaleWrap (numPrint ((JsRat.ofNat 100).div w))
                (numPrint ((JsRat.ofNat 100).div h))
                (String.mk (strokeReplace (jsTrim inner)))
            else gWrap (String.mk (strokeReplace (jsTrim inner))))) :=
  ⟨processPackSvg_none_iff numPrint s, fun r hr => processPackSvg_some_shape numPrint s r hr⟩

/-- C10 counterexample: the claim omits the stroke normalization — on an
input with a hard-coded stroke, the result is not the inner content wrapped
in `<g>`, but the stroke-rewritten inner content wrapped in `<g>`. -/
theorem processPackSvg_counterexample :
    innerCapture ("<svg viewBox=\"0 0 100 100\"><path stroke=\"red\"/></svg>").toList
        = some ("<path stroke=\"red\"/>").toList
    ∧ processPackSvg qPrint "<svg viewBox=\"0 0 100 100\"><path stroke=\"red\"/></svg>"
        = some "<g fill=\"currentColor\"><path stroke=\"currentColor\"/></g>"
    ∧ processPackSvg qPrint "<svg viewBox=\"0 0 100 100\"><path stroke=\"red\"/></svg>"
        ≠ some (gWrap "<path stroke=\"red\"/>") := by
  refine ⟨by decide, by decide, by decide⟩

/-- Concrete instance of the amended C10: a 24x24 icon gets the scale
wrapper with the exact factors 100/24. -/
theorem processPackSvg_spec_witness :
    ∃ cap inner w h,
      viewBoxCapture ("<svg viewBox=\"0 0 24 24\"><path/></svg>").toList = some cap
      ∧ entryNum (splitWs cap) 2 = some w ∧ entryNum (splitWs cap) 3 = some h
      ∧ w.isZero = false ∧ h.isZero = false
      ∧ innerCapture ("<svg viewBox=\"0 0 24 24\"><path/></svg>").toList = some inner
      ∧ (jsTrim inner).isEmpty = false
      ∧ ("<g transform=\"scale(100/24, 100/24)\" fill=\"currentColor\"><path/></g>" : String)
          = (if !w.eqv (JsRat.ofNat 100) || !h.eqv (JsRat.ofNat 100) then
              gScaleWrap (qPrint ((JsRat.ofNat 100).div w)) (qPrint ((JsRat.ofNat 100).div h))
                (String.mk (strokeReplace (jsTrim inner)))
            else gWrap (String.mk (strokeReplace (jsTrim inner)))) :=
  (processPackSvg_spec qPrint "<svg viewBox=\"0 0 24 24\"><path/></svg>").2
    "<g transform=\"scale(100/24, 100/24)\" fill=\"currentColor\"><path/></g>" (by decide)
